import Mathlib

/-!
Verification of the pricing, risk and fulfillment-routing core of the
protocol-v2 repository.  The Rust sources are shallowly embedded:

* machine integers become `Nat`/`Int`, with the Rust checked operations
  (`checked_add`, `safe_mul`, ...) becoming `Option`-valued functions that
  fail exactly when the Rust operation would overflow its width;
* fallible Rust functions returning `Result` become `Option`-valued
  Lean functions;
* the two generations of state code are kept apart: namespace `CH`
  embeds `programs/clearing_house/src/state/market.rs` and
  `programs/clearing_house/src/math/oracle.rs`, namespace `Drift`
  embeds `programs/clearing_house/src/state/perp_market.rs` and
  `programs/drift/src/math/fulfillment.rs`.

Functions of this repository that the sources call but that are not among
the given files (math/auction.rs, math/matching.rs, math/amm_jit.rs,
math/margin.rs, math/amm.rs, math/constants.rs) are modelled from the
specification; each such definition carries a doc comment starting with
`Modelled from the spec:`.
-/

namespace Protocol

/-- Rust `u128::checked_add` / drift `safe_add`: fails on overflow past 2^128. -/
def checked_add_u128 (a b : Nat) : Option Nat :=
  if a + b < 2 ^ 128 then some (a + b) else none

/-- Rust `u128::checked_sub` / drift `safe_sub`: fails on underflow. -/
def checked_sub_u (a b : Nat) : Option Nat :=
  if b ≤ a then some (a - b) else none

/-- Rust `u128::checked_mul` / drift `safe_mul`: fails on overflow past 2^128. -/
def checked_mul_u128 (a b : Nat) : Option Nat :=
  if a * b < 2 ^ 128 then some (a * b) else none

/-- Rust unsigned `checked_div` / drift `safe_div`: fails on division by zero. -/
def checked_div_u (a b : Nat) : Option Nat :=
  if b = 0 then none else some (a / b)

/-- Rust fallible narrowing cast to `u64` (`cast::<u64>()`). -/
def cast_u64 (a : Nat) : Option Nat :=
  if a < 2 ^ 64 then some a else none

/-- Rust fallible narrowing cast to `u32` (`cast::<u32>()`). -/
def cast_u32_checked (a : Nat) : Option Nat :=
  if a < 2 ^ 32 then some a else none

/-- Rust wrapping cast `as u32`. -/
def as_u32 (a : Nat) : Nat := a % 2 ^ 32

/-- Rust wrapping cast `as u8`. -/
def as_u8 (a : Nat) : Nat := a % 2 ^ 8

/-- Rust `i128::checked_mul`: fails when the product leaves the i128 range. -/
def checked_mul_i128 (a b : Int) : Option Int :=
  if -(2 ^ 127) ≤ a * b ∧ a * b < 2 ^ 127 then some (a * b) else none

/-- Rust `i128::checked_div` (truncating toward zero): fails on a zero divisor.
The `i128::MIN / -1` overflow case cannot arise at the call sites embedded
here, whose divisors are positive. -/
def checked_div_i128 (a b : Int) : Option Int :=
  if b = 0 then none else some (Int.tdiv a b)

end Protocol

namespace Drift

open Protocol

/-- Modelled from the spec: `math/constants.rs` is not among the sources.
Spread-precision unit used by `bid_price`/`ask_price` in perp_market.rs. -/
def BID_ASK_SPREAD_PRECISION_U128 : Nat := 1000000

/-- Modelled from the spec: margin-precision unit (1x leverage = 10^4). -/
def MARGIN_PRECISION_U128 : Nat := 10000

/-- Modelled from the spec: full-unit spot asset weight precision. -/
def SPOT_WEIGHT_PRECISION : Nat := 10000

/-- Modelled from the spec: imf-factor precision used by the size
premium/discount curves. -/
def SPOT_IMF_PRECISION : Nat := 1000000

/-- Modelled from the spec: ratio between AMM reserve precision (10^9)
and quote precision (10^6); source constant `AMM_TO_QUOTE_PRECISION_RATIO`. -/
def ammToQuotePrecisionRatio : Nat := 1000

/-- `controller::position::PositionDirection`. -/
inductive PositionDirection where
  | Long
  | Short
deriving DecidableEq, Repr

/-- `PositionDirection::opposite`. -/
def PositionDirection.opposite : PositionDirection → PositionDirection
  | .Long => .Short
  | .Short => .Long

/-- `MarketStatus` from perp_market.rs. -/
inductive MarketStatus where
  | Initialized
  | Active
  | FundingPaused
  | AmmPaused
  | FillPaused
  | WithdrawPaused
  | ReduceOnly
  | Settlement
  | Delisted
deriving DecidableEq, Repr

/-- `math::margin::MarginRequirementType` of the drift program (margin.rs is
not among the sources; perp_market.rs matches on exactly the variants
`Initial` and `Maintenance`). -/
inductive MarginRequirementType where
  | Initial
  | Maintenance
deriving DecidableEq, Repr

/-- The fields of `state::perp_market::AMM` read by the embedded functions
(`bid_price`, `ask_price`, `amm_jit_is_active`, the fulfillment router,
and `PerpMarket::get_unrealized_asset_weight`). -/
structure AMM where
  base_asset_amount_with_amm : Int
  amm_jit_intensity : Nat
  long_spread : Nat
  short_spread : Nat
deriving DecidableEq, Repr

/-- `AMM::amm_jit_is_active`. -/
def AMM.amm_jit_is_active (amm : AMM) : Bool :=
  amm.amm_jit_intensity > 0

/-- `AMM::bid_price` (perp_market.rs): reserve price scaled down by the
short spread in u128 arithmetic, cast back to u64. -/
def AMM.bid_price (amm : AMM) (reserve_price : Nat) : Option Nat := do
  let spread ← checked_sub_u BID_ASK_SPREAD_PRECISION_U128 amm.short_spread
  let num ← checked_mul_u128 reserve_price spread
  let q ← checked_div_u num BID_ASK_SPREAD_PRECISION_U128
  cast_u64 q

/-- `AMM::ask_price` (perp_market.rs): reserve price scaled up by the
long spread in u128 arithmetic, cast back to u64. -/
def AMM.ask_price (amm : AMM) (reserve_price : Nat) : Option Nat := do
  let spread ← checked_add_u128 BID_ASK_SPREAD_PRECISION_U128 amm.long_spread
  let num ← checked_mul_u128 reserve_price spread
  let q ← checked_div_u num BID_ASK_SPREAD_PRECISION_U128
  cast_u64 q

/-- `AMM::bid_ask_price` (perp_market.rs). -/
def AMM.bid_ask_price (amm : AMM) (reserve_price : Nat) : Option (Nat × Nat) := do
  let bid ← AMM.bid_price amm reserve_price
  let ask ← AMM.ask_price amm reserve_price
  some (bid, ask)

/-- The fields of `PerpMarket` read by the embedded functions. -/
structure PerpMarket where
  status : MarketStatus
  margin_ratio_initial : Nat
  margin_ratio_maintenance : Nat
  imf_factor : Nat
  unrealized_pnl_initial_asset_weight : Nat
  unrealized_pnl_maintenance_asset_weight : Nat
  unrealized_pnl_max_imbalance : Nat
  unrealized_pnl_imf_factor : Nat
  amm : AMM
deriving DecidableEq, Repr

/-- Modelled from the spec: `calculate_size_premium_liability_weight`
(math/margin.rs) is not among the sources.  Per the spec, when the imf
factor is positive the size-adjusted ratio is a reduced floor
(base minus base divided by the imf-scaled precision) plus a size-surplus
term proportional to sqrt(size/1000) times the imf factor, and the result
is never below the base ratio; with a zero imf factor the base ratio is
returned unchanged. -/
def calculate_size_premium_liability_weight
    (size imf_factor liability_weight precision : Nat) : Option Nat :=
  if imf_factor = 0 then some liability_weight
  else do
    let size_sqrt := Nat.sqrt (size / 1000 + 1)
    let q ← checked_div_u liability_weight (SPOT_IMF_PRECISION / imf_factor)
    let numer ← checked_sub_u liability_weight q
    let prod ← checked_mul_u128 size_sqrt imf_factor
    let term ← checked_div_u prod (100000 * SPOT_IMF_PRECISION / precision)
    let adjusted ← checked_add_u128 numer term
    some (max liability_weight adjusted)

/-- Modelled from the spec: `calculate_size_discount_asset_weight`
(math/margin.rs) is not among the sources.  Per the spec, the discounted
weight is the configured weight capped by
(1.1 in imf precision, expressed in weight precision) divided by
(1 + sqrt(size) * imf_factor / scale); a zero imf factor leaves the
weight unchanged. -/
def calculate_size_discount_asset_weight
    (size imf_factor asset_weight : Nat) : Option Nat :=
  if imf_factor = 0 then some asset_weight
  else do
    let size_sqrt := Nat.sqrt (size / 1000 + 1)
    let num ← checked_mul_u128 (SPOT_IMF_PRECISION + SPOT_IMF_PRECISION / 10)
        SPOT_WEIGHT_PRECISION
    let prod ← checked_mul_u128 size_sqrt imf_factor
    let scaled ← checked_div_u prod 1000
    let denom ← checked_add_u128 SPOT_IMF_PRECISION scaled
    let q ← checked_div_u num denom
    some (min asset_weight q)

/-- `PerpMarket::get_margin_ratio` (perp_market.rs): a Settlement market
imposes no liability weight; otherwise the configured base ratio for the
margin type, raised to the size-premium ratio. -/
def PerpMarket.get_margin_ratio (pm : PerpMarket) (size : Nat)
    (margin_type : MarginRequirementType) : Option Nat :=
  if pm.status = MarketStatus.Settlement then some 0
  else do
    let default_margin_ratio :=
      match margin_type with
      | .Initial => pm.margin_ratio_initial
      | .Maintenance => pm.margin_ratio_maintenance
    let size_adj_margin_ratio ← calculate_size_premium_liability_weight
        size pm.imf_factor default_margin_ratio MARGIN_PRECISION_U128
    some (max default_margin_ratio size_adj_margin_ratio)

/-- `PerpMarket::get_unrealized_asset_weight` (perp_market.rs).
`net_user_pnl_result` stands for the result of
`amm::calculate_net_user_pnl(&self.amm, last_oracle_price)`: math/amm.rs is
not among the sources and the spec describes it only as the aggregate net
unsettled PnL across users, so its outcome is a parameter of the embedding. -/
def PerpMarket.get_unrealized_asset_weight (pm : PerpMarket)
    (net_user_pnl_result : Option Int) (unrealized_pnl : Int)
    (margin_type : MarginRequirementType) : Option Nat := do
  let w0 :=
    match margin_type with
    | .Initial => pm.unrealized_pnl_initial_asset_weight
    | .Maintenance => pm.unrealized_pnl_maintenance_asset_weight
  let margin_asset_weight ←
    if margin_type = MarginRequirementType.Initial ∧
        pm.unrealized_pnl_max_imbalance > 0 then do
      let net_unsettled_pnl ← net_user_pnl_result
      if net_unsettled_pnl > (pm.unrealized_pnl_max_imbalance : Int) then do
        let x ← checked_mul_u128 w0 pm.unrealized_pnl_max_imbalance
        let y ← checked_div_u x net_unsettled_pnl.natAbs
        cast_u32_checked y
      else some w0
    else some w0
  if unrealized_pnl > 0 then
    match margin_type with
    | .Initial => do
        let size ← checked_mul_u128 unrealized_pnl.natAbs ammToQuotePrecisionRatio
        calculate_size_discount_asset_weight size pm.unrealized_pnl_imf_factor
          margin_asset_weight
    | .Maintenance => some pm.unrealized_pnl_maintenance_asset_weight
  else
    some SPOT_WEIGHT_PRECISION

/-- `state::fulfillment::PerpFulfillmentMethod`.  Maker keys (`Pubkey`)
are abstracted to `Nat`. -/
inductive PerpFulfillmentMethod where
  | AMM (price : Option Nat) (size : Option Nat)
  | Match (maker_key : Nat) (maker_order_index : Nat)
deriving DecidableEq, Repr

/-- Whether a fulfillment step is a maker match (and hence not an
AMM-sourced step of any form). -/
def PerpFulfillmentMethod.isMatchStep : PerpFulfillmentMethod → Bool
  | .Match _ _ => true
  | .AMM _ _ => false

/-- Modelled from the spec: `do_orders_cross` (math/matching.rs) is not
among the sources.  Per the spec, iteration stops once the taker no longer
crosses the current maker price: a maker bidding Long is crossed when the
taker's price is at most the maker's, a maker offering Short when the
taker's price is at least the maker's. -/
def do_orders_cross (maker_direction : PositionDirection)
    (maker_price taker_price : Nat) : Bool :=
  match maker_direction with
  | .Long => decide (taker_price ≤ maker_price)
  | .Short => decide (maker_price ≤ taker_price)

/-- Modelled from the spec: `calculate_jit_base_asset_amount`
(math/amm_jit.rs) is not among the sources.  The spec records that the JIT
quote (price, size) computation observed in this router is a stub fed
placeholder zero values, and that a JIT step is appended only when the
candidate size is nonzero; the candidate size is modelled as the requested
size itself, which the router fixes at zero. -/
def calculate_jit_base_asset_amount (amm : AMM) (jit_size jit_price : Nat)
    (valid_oracle_price : Option Int)
    (taker_direction : PositionDirection) : Nat :=
  let _ := amm
  let _ := jit_price
  let _ := valid_oracle_price
  let _ := taker_direction
  jit_size

/-- The crossing test of the router (fulfillment.rs lines 37-40 and
105-108): with a limit price, `do_orders_cross`; a market order (no limit
price) always crosses. -/
def taker_crosses (maker_direction : PositionDirection)
    (taker_price : Option Nat) (price : Nat) : Bool :=
  match taker_price with
  | some tp => do_orders_cross maker_direction price tp
  | none => true

/-- The `maker_better_than_amm` test of the router (fulfillment.rs lines
47-50): for a long taker the maker must not exceed the AMM ask, for a
short taker it must not fall below the AMM bid. -/
def maker_better_than_amm (taker_direction : PositionDirection)
    (maker_price amm_bid_price amm_ask_price : Nat) : Bool :=
  match taker_direction with
  | .Long => decide (maker_price ≤ amm_ask_price)
  | .Short => decide (amm_bid_price ≤ maker_price)

/-- The AMM price-improvement step of the router (fulfillment.rs lines
52-59): push an AMM step capped at the maker's price and advance the AMM's
effective price on the taker's side to the maker's price. -/
def amm_capped_step (taker_direction : PositionDirection) (maker_price : Nat)
    (amm_bid_price amm_ask_price : Nat) (acc : List PerpFulfillmentMethod) :
    List PerpFulfillmentMethod × Nat × Nat :=
  (acc ++ [PerpFulfillmentMethod.AMM (some maker_price) none],
    match taker_direction with
    | .Long => amm_bid_price
    | .Short => maker_price,
    match taker_direction with
    | .Long => maker_price
    | .Short => amm_ask_price)

/-- The maker-list loop of `determine_perp_fulfillment_methods`
(fulfillment.rs lines 36-70), written as a fold carrying the accumulated
plan and the AMM's effective bid/ask prices.  Returns the plan together
with the advanced bid and ask. -/
def fulfillmentLoop (taker_direction maker_direction : PositionDirection)
    (can_fill_with_amm : Bool) (taker_price : Option Nat) :
    List (Nat × Nat × Nat) → Nat → Nat → List PerpFulfillmentMethod →
    List PerpFulfillmentMethod × Nat × Nat
  | [], amm_bid_price, amm_ask_price, acc => (acc, amm_bid_price, amm_ask_price)
  | (maker_key, maker_order_index, maker_price) :: rest,
      amm_bid_price, amm_ask_price, acc =>
    if !taker_crosses maker_direction taker_price maker_price then
      (acc, amm_bid_price, amm_ask_price)
    else
      let step :=
        if can_fill_with_amm &&
            !maker_better_than_amm taker_direction maker_price
              amm_bid_price amm_ask_price then
          amm_capped_step taker_direction maker_price amm_bid_price
            amm_ask_price acc
        else (acc, amm_bid_price, amm_ask_price)
      let acc2 := step.1 ++ [PerpFulfillmentMethod.Match maker_key maker_order_index]
      if acc2.length > 6 then (acc2, step.2.1, step.2.2)
      else fulfillmentLoop taker_direction maker_direction can_fill_with_amm
        taker_price rest step.2.1 step.2.2 acc2

/-- `determine_perp_fulfillment_methods` (fulfillment.rs).  Two calls whose
callees are not among the sources are abstracted to parameters of the
embedding: `taker_price` stands for the result of
`taker_order.get_limit_price(...)` (state/user.rs) and `amm_availability`
for the result of `is_amm_available_liquidity_source(taker_order,
min_auction_duration, slot)` (math/auction.rs), the taker's auction-gating
rule of the spec. -/
def determine_perp_fulfillment_methods
    (taker_direction : PositionDirection) (taker_price : Option Nat)
    (maker_orders_info : List (Nat × Nat × Nat)) (amm : AMM)
    (amm_reserve_price : Nat) (valid_oracle_price : Option Int)
    (amm_is_available : Bool) (amm_availability : Bool) :
    Option (List PerpFulfillmentMethod) := do
  let can_fill_with_amm :=
    amm_is_available && valid_oracle_price.isSome && amm_availability
  let maker_direction := taker_direction.opposite
  let prices ← AMM.bid_ask_price amm amm_reserve_price
  let looped := fulfillmentLoop taker_direction maker_direction
    can_fill_with_amm taker_price maker_orders_info prices.1 prices.2 []
  let amm_wants_to_make :=
    (match taker_direction with
      | .Long => decide (amm.base_asset_amount_with_amm < 0)
      | .Short => decide (amm.base_asset_amount_with_amm > 0))
    && amm.amm_jit_is_active
  let jit_price := 0
  let jit_size := 0
  let methods1 :=
    if amm_wants_to_make then
      let jit_base_asset_amount := calculate_jit_base_asset_amount amm
        jit_size jit_price valid_oracle_price taker_direction
      if jit_base_asset_amount > 0 then
        looped.1 ++ [PerpFulfillmentMethod.AMM (some jit_price) (some jit_size)]
      else looped.1
    else looped.1
  let methods2 :=
    if can_fill_with_amm then
      let amm_price :=
        match maker_direction with
        | .Long => looped.2.1
        | .Short => looped.2.2
      if taker_crosses maker_direction taker_price amm_price then
        methods1 ++ [PerpFulfillmentMethod.AMM none none]
      else methods1
    else methods1
  some methods2

end Drift

namespace CH

open Protocol

/-- Modelled from the spec: mark-price precision of the clearing_house
program (`MARK_PRICE_PRECISION`, math/constants.rs not among the sources). -/
def MARK_PRICE_PRECISION : Nat := 10 ^ 10

/-- `MARK_PRICE_PRECISION` as a signed constant (`MARK_PRICE_PRECISION_I128`). -/
def MARK_PRICE_PRECISION_I : Int := 10 ^ 10

/-- Modelled from the spec: spread-precision unit of the clearing_house
program (`BID_ASK_SPREAD_PRECISION`). -/
def BID_ASK_SPREAD_PRECISION : Nat := 1000000

/-- Modelled from the spec: margin-precision unit, 1x leverage = 10^4
(per the source comments in market.rs). -/
def MARGIN_PRECISION : Nat := 10000

/-- Modelled from the spec: imf-factor precision of the clearing_house
program (`BANK_IMF_PRECISION`; the source comment "1e5 * 1e2" at the
size-surplus divisor pins `100_000 * BANK_IMF_PRECISION / MARGIN_PRECISION`
at 10^7, i.e. `BANK_IMF_PRECISION = 10^6`). -/
def BANK_IMF_PRECISION : Nat := 1000000

/-- Modelled from the spec: full-unit bank asset weight
(`BANK_WEIGHT_PRECISION`; the source comment "100 = 1 in
BANK_WEIGHT_PRECISION" pins it at 100). -/
def BANK_WEIGHT_PRECISION : Nat := 100

/-- `math::margin::MarginRequirementType` of the clearing_house program
(margin.rs is not among the sources; market.rs matches on exactly the
variants `Initial`, `Partial` and `Maintenance`). -/
inductive MarginRequirementType where
  | Initial
  | Partial
  | Maintenance
deriving DecidableEq, Repr

/-- The fields of `state::market::AMM` read by the embedded functions. -/
structure AMM where
  base_asset_reserve : Nat
  quote_asset_reserve : Nat
  peg_multiplier : Nat
  long_spread : Nat
  short_spread : Nat
  last_oracle_price : Int
deriving DecidableEq, Repr

/-- Modelled from the spec: `amm::calculate_price` (math/amm.rs) is not
among the sources.  Per the spec, the mark price is
`quote_reserve × peg_multiplier / base_reserve`, and division by a
depleted reserve is a fatal market-state error. -/
def calculate_price (quote_asset_reserve base_asset_reserve peg_multiplier : Nat) :
    Option Nat :=
  if base_asset_reserve = 0 then none
  else some (quote_asset_reserve * peg_multiplier / base_asset_reserve)

/-- `AMM::mark_price` (market.rs). -/
def AMM.mark_price (amm : AMM) : Option Nat :=
  calculate_price amm.quote_asset_reserve amm.base_asset_reserve amm.peg_multiplier

/-- `AMM::bid_price` (market.rs): u128 arithmetic throughout. -/
def AMM.bid_price (amm : AMM) (mark_price : Nat) : Option Nat := do
  let spread ← checked_sub_u BID_ASK_SPREAD_PRECISION amm.short_spread
  let num ← checked_mul_u128 mark_price spread
  checked_div_u num BID_ASK_SPREAD_PRECISION

/-- `AMM::ask_price` (market.rs): u128 arithmetic throughout. -/
def AMM.ask_price (amm : AMM) (mark_price : Nat) : Option Nat := do
  let spread ← checked_add_u128 BID_ASK_SPREAD_PRECISION amm.long_spread
  let num ← checked_mul_u128 mark_price spread
  checked_div_u num BID_ASK_SPREAD_PRECISION

/-- `AMM::bid_ask_price` (market.rs). -/
def AMM.bid_ask_price (amm : AMM) (mark_price : Nat) : Option (Nat × Nat) := do
  let bid ← AMM.bid_price amm mark_price
  let ask ← AMM.ask_price amm mark_price
  some (bid, ask)

/-- The fields of `state::market::Market` read by the embedded functions.
`marginRatioPartial` mirrors the source field `margin_ratio_partial`. -/
structure Market where
  margin_ratio_initial : Nat
  marginRatioPartial : Nat
  margin_ratio_maintenance : Nat
  imf_factor : Nat
  unsettled_initial_asset_weight : Nat
  unsettled_maintenance_asset_weight : Nat
  amm : AMM
deriving DecidableEq, Repr

/-- `Market::get_margin_ratio` (market.rs lines 52-102): base ratio by
margin type, and — when the imf factor is positive — a size-surplus
requirement built from the partial ratio, clamped into
`[margin_ratio_partial, margin_ratio_max]`; the result is the maximum of
the base ratio and the (u32-truncated) requirement. -/
def Market.get_margin_ratio (m : Market) (size : Nat)
    (margin_type : MarginRequirementType) : Option Nat :=
  let margin_ratio :=
    match margin_type with
    | .Initial => m.margin_ratio_initial
    | .Partial => m.marginRatioPartial
    | .Maintenance => m.margin_ratio_maintenance
  let margin_requirement := m.marginRatioPartial
  let margin_ratio_max :=
    match margin_type with
    | .Initial => MARGIN_PRECISION
    | .Partial => MARGIN_PRECISION
    | .Maintenance => MARGIN_PRECISION + MARGIN_PRECISION / 10
  if m.imf_factor > 0 then do
    let size_sqrt := Nat.sqrt (size / 1000 + 1)
    let q ← checked_div_u margin_requirement (BANK_IMF_PRECISION / m.imf_factor)
    let margin_requirement_numer ← checked_sub_u margin_requirement q
    let prod ← checked_mul_u128 size_sqrt m.imf_factor
    let term ← checked_div_u prod (100000 * BANK_IMF_PRECISION / MARGIN_PRECISION)
    let size_surplus_margin_requirement ← checked_add_u128 margin_requirement_numer term
    let clamped := min (max margin_requirement size_surplus_margin_requirement)
      margin_ratio_max
    some (max margin_ratio (as_u32 clamped))
  else
    some (max margin_ratio (as_u32 margin_requirement))

/-- `Market::get_unsettled_asset_weight` (market.rs lines 104-157). -/
def Market.get_unsettled_asset_weight (m : Market) (unsettled_pnl : Int)
    (margin_type : MarginRequirementType) : Option Nat := do
  let unrealised_asset_weight ←
    if unsettled_pnl > 0 then
      if margin_type = MarginRequirementType.Initial then do
        let num ← checked_mul_i128 unsettled_pnl MARK_PRICE_PRECISION_I
        let sized ← checked_div_i128 num (max MARK_PRICE_PRECISION_I m.amm.last_oracle_price)
        let size := sized.natAbs
        let weight_num ← checked_mul_u128 (BANK_IMF_PRECISION + BANK_IMF_PRECISION / 10)
          BANK_WEIGHT_PRECISION
        let prod ← checked_mul_u128 (Nat.sqrt (size + 1)) m.imf_factor
        let scaled ← checked_div_u prod 1000
        let denom ← checked_add_u128 BANK_IMF_PRECISION scaled
        let q ← checked_div_u weight_num denom
        some (min m.unsettled_initial_asset_weight (as_u8 q))
      else
        some (match margin_type with
          | .Initial => m.unsettled_initial_asset_weight
          | .Partial => m.unsettled_maintenance_asset_weight
          | .Maintenance => m.unsettled_maintenance_asset_weight)
    else
      some 100
  some (min BANK_WEIGHT_PRECISION unrealised_asset_weight)

/-- `state::oracle::OraclePriceData`. -/
structure OraclePriceData where
  price : Int
  confidence : Nat
  delay : Int
  has_sufficient_number_of_data_points : Bool
deriving DecidableEq, Repr

/-- Modelled from the spec: the oracle validity rules of
`state::state::OracleGuardRails` (not among the sources): a maximum
confidence-to-price ratio and a maximum staleness. -/
structure ValidityGuardRails where
  slots_before_stale : Int
  confidence_interval_max_size : Nat
deriving DecidableEq, Repr

/-- Modelled from the spec: the divergence rules of `OracleGuardRails`:
a maximum oracle-mark spread, in spread-precision units. -/
structure PriceDivergenceGuardRails where
  mark_oracle_divergence : Nat
deriving DecidableEq, Repr

/-- `state::state::OracleGuardRails` (validity plus divergence rules). -/
structure OracleGuardRails where
  validity : ValidityGuardRails
  price_divergence : PriceDivergenceGuardRails
deriving DecidableEq, Repr

/-- Modelled from the spec: `amm::is_oracle_valid` (math/amm.rs) is not
among the sources.  Per the spec, a reading is invalid when its
confidence-to-price ratio exceeds the configured bound (stated here by
cross-multiplication against the spread precision), its staleness delay
exceeds the configured maximum, or it has insufficient data points. -/
def is_oracle_valid (amm : AMM) (oracle_price_data : OraclePriceData)
    (validity : ValidityGuardRails) : Option Bool :=
  let _ := amm
  let conf_exceeds :=
    oracle_price_data.confidence * BID_ASK_SPREAD_PRECISION >
      validity.confidence_interval_max_size * oracle_price_data.price.natAbs
  let stale := oracle_price_data.delay > validity.slots_before_stale
  some (decide (¬conf_exceeds ∧ ¬stale) &&
    oracle_price_data.has_sufficient_number_of_data_points)

/-- Modelled from the spec: `amm::calculate_oracle_mark_spread_pct`
(math/amm.rs) is not among the sources.  Per the spec, the signed spread is
`(oracle_price − mark_price) / mark_price` in spread-precision units, the
mark price being the AMM's when none is precomputed. -/
def calculate_oracle_mark_spread_pct (amm : AMM)
    (oracle_price_data : OraclePriceData)
    (precomputed_mark_price : Option Nat) : Option Int := do
  let mark ←
    match precomputed_mark_price with
    | some m => some m
    | none => AMM.mark_price amm
  if mark = 0 then none
  else
    some (Int.tdiv ((oracle_price_data.price - (mark : Int)) *
      (BID_ASK_SPREAD_PRECISION : Int)) (mark : Int))

/-- Modelled from the spec: `amm::is_oracle_mark_too_divergent`
(math/amm.rs) is not among the sources.  Per the spec, true when the
absolute spread exceeds the configured maximum. -/
def is_oracle_mark_too_divergent (oracle_mark_spread_pct : Int)
    (price_divergence : PriceDivergenceGuardRails) : Bool :=
  oracle_mark_spread_pct.natAbs > price_divergence.mark_oracle_divergence

/-- `math::oracle::OracleStatus`. -/
structure OracleStatus where
  price_data : OraclePriceData
  oracle_mark_spread_pct : Int
  is_valid : Bool
  mark_too_divergent : Bool
deriving DecidableEq, Repr

/-- `get_oracle_status` (oracle.rs lines 32-50). -/
def get_oracle_status (amm : AMM) (oracle_price_data : OraclePriceData)
    (guard_rails : OracleGuardRails) (precomputed_mark_price : Option Nat) :
    Option OracleStatus := do
  let oracle_is_valid ← is_oracle_valid amm oracle_price_data guard_rails.validity
  let oracle_mark_spread_pct ← calculate_oracle_mark_spread_pct amm
    oracle_price_data precomputed_mark_price
  let is_oracle_mark_too_divergent' := is_oracle_mark_too_divergent
    oracle_mark_spread_pct guard_rails.price_divergence
  some { price_data := oracle_price_data
         oracle_mark_spread_pct := oracle_mark_spread_pct
         is_valid := oracle_is_valid
         mark_too_divergent := is_oracle_mark_too_divergent' }

/-- `block_operation` (oracle.rs lines 7-22). -/
def block_operation (amm : AMM) (oracle_price_data : OraclePriceData)
    (guard_rails : OracleGuardRails) (precomputed_mark_price : Option Nat) :
    Option Bool := do
  let status ← get_oracle_status amm oracle_price_data guard_rails
    precomputed_mark_price
  some (!status.is_valid || status.mark_too_divergent)

/-- `switchboard_v2::decimal::SwitchboardDecimal`: a mantissa (i128) with
a decimal scale (u32). -/
structure SwitchboardDecimal where
  mantissa : Int
  scale : Nat
deriving DecidableEq, Repr

/-- The fields of `switchboard_v2::AggregatorAccountData` read by
`get_switchboard_price`: the latest confirmed round's result and standard
deviation, its open slot and success count, and the configured minimum
oracle results. -/
structure AggregatorAccountData where
  latest_round_result : SwitchboardDecimal
  latest_round_std_deviation : SwitchboardDecimal
  latest_round_open_slot : Nat
  latest_round_num_success : Nat
  min_oracle_results : Nat
deriving DecidableEq, Repr

/-- `convert_switchboard_decimal` (market.rs lines 465-480): rescale a
mantissa from its own decimal precision to `MARK_PRICE_PRECISION`. -/
def convert_switchboard_decimal (switchboard_decimal : SwitchboardDecimal) :
    Option Int :=
  let switchboard_precision := 10 ^ switchboard_decimal.scale
  if switchboard_precision > MARK_PRICE_PRECISION then
    checked_div_i128 switchboard_decimal.mantissa
      ((switchboard_precision / MARK_PRICE_PRECISION : Nat) : Int)
  else
    checked_mul_i128 switchboard_decimal.mantissa
      ((MARK_PRICE_PRECISION / switchboard_precision : Nat) : Int)

/-- Rust `i64::checked_sub` for the delay computation: fails when the
difference leaves the i64 range. -/
def checked_sub_i64 (a b : Int) : Option Int :=
  if -(2 ^ 63) ≤ a - b ∧ a - b < 2 ^ 63 then some (a - b) else none

/-- Rust fallible cast of a `u64` into `i64`. -/
def cast_to_i64 (a : Nat) : Option Int :=
  if a < 2 ^ 63 then some (a : Int) else none

/-- `AMM::get_switchboard_price` (market.rs lines 380-419): convert the
round's result and standard deviation, flag a negative converted standard
deviation with `u128::MAX`, otherwise floor the confidence at
`|price| / 1000`, and report staleness and data sufficiency. -/
def get_switchboard_price (aggregator_data : AggregatorAccountData)
    (clock_slot : Nat) : Option OraclePriceData := do
  let price ← convert_switchboard_decimal aggregator_data.latest_round_result
  let confidence0 ← convert_switchboard_decimal
    aggregator_data.latest_round_std_deviation
  let confidence ←
    if confidence0 < 0 then some (2 ^ 128 - 1)
    else do
      let price_10bps ← checked_div_u price.natAbs 1000
      some (max confidence0.natAbs price_10bps)
  let slotI ← cast_to_i64 clock_slot
  let openI ← cast_to_i64 aggregator_data.latest_round_open_slot
  let delay ← checked_sub_i64 slotI openI
  let has_sufficient_number_of_data_points :=
    aggregator_data.latest_round_num_success ≥ aggregator_data.min_oracle_results
  some { price := price
         confidence := confidence
         delay := delay
         has_sufficient_number_of_data_points := has_sufficient_number_of_data_points }

end CH

/-! Concrete instances used by witnesses and counterexamples. -/

/-- A flat drift AMM: no inventory, no JIT, zero spreads. -/
def exAmmDrift : Drift.AMM :=
  { base_asset_amount_with_amm := 0
    amm_jit_intensity := 0
    long_spread := 0
    short_spread := 0 }

/-- A flat clearing_house AMM at mark price 1 with zero spreads. -/
def exAmmCH : CH.AMM :=
  { base_asset_reserve := 100
    quote_asset_reserve := 100
    peg_multiplier := 1
    long_spread := 0
    short_spread := 0
    last_oracle_price := 10 ^ 10 }

/-- A clearing_house market with the stock 10x/16x/20x risk ladder
(initial 1000, partial 625, maintenance 500) and zero imf factor. -/
def exMarketCH : CH.Market :=
  { margin_ratio_initial := 1000
    marginRatioPartial := 625
    margin_ratio_maintenance := 500
    imf_factor := 0
    unsettled_initial_asset_weight := 80
    unsettled_maintenance_asset_weight := 90
    amm := exAmmCH }

/-- `exMarketCH` with a positive imf factor. -/
def exMarketCHImf : CH.Market :=
  { margin_ratio_initial := 1000
    marginRatioPartial := 625
    margin_ratio_maintenance := 500
    imf_factor := 1000
    unsettled_initial_asset_weight := 80
    unsettled_maintenance_asset_weight := 90
    amm := exAmmCH }

/-- An active drift perp market with zero imf factor. -/
def exPerpMarket : Drift.PerpMarket :=
  { status := Drift.MarketStatus.Active
    margin_ratio_initial := 1000
    margin_ratio_maintenance := 500
    imf_factor := 0
    unrealized_pnl_initial_asset_weight := 8000
    unrealized_pnl_maintenance_asset_weight := 9000
    unrealized_pnl_max_imbalance := 0
    unrealized_pnl_imf_factor := 0
    amm := exAmmDrift }

/-- `exPerpMarket` with a positive imf factor. -/
def exPerpMarketImf : Drift.PerpMarket :=
  { status := Drift.MarketStatus.Active
    margin_ratio_initial := 1000
    margin_ratio_maintenance := 500
    imf_factor := 50
    unrealized_pnl_initial_asset_weight := 8000
    unrealized_pnl_maintenance_asset_weight := 9000
    unrealized_pnl_max_imbalance := 0
    unrealized_pnl_imf_factor := 0
    amm := exAmmDrift }

/-- `exPerpMarket` in Settlement. -/
def exPerpMarketSettled : Drift.PerpMarket :=
  { status := Drift.MarketStatus.Settlement
    margin_ratio_initial := 1000
    margin_ratio_maintenance := 500
    imf_factor := 0
    unrealized_pnl_initial_asset_weight := 8000
    unrealized_pnl_maintenance_asset_weight := 9000
    unrealized_pnl_max_imbalance := 0
    unrealized_pnl_imf_factor := 0
    amm := exAmmDrift }

/-- Guard rails: 2% confidence bound, 10 slots staleness, 10% divergence. -/
def exGuardRails : CH.OracleGuardRails :=
  { validity := { slots_before_stale := 10, confidence_interval_max_size := 20000 }
    price_divergence := { mark_oracle_divergence := 100000 } }

/-- A fresh, confident oracle reading at price 100. -/
def exOracleData : CH.OraclePriceData :=
  { price := 100
    confidence := 1
    delay := 0
    has_sufficient_number_of_data_points := true }

/-- A switchboard aggregator whose standard deviation has a negative
mantissa (-1) at scale 20, which converts to zero by truncation. -/
def exAggregator : CH.AggregatorAccountData :=
  { latest_round_result := { mantissa := 5, scale := 0 }
    latest_round_std_deviation := { mantissa := -1, scale := 20 }
    latest_round_open_slot := 0
    latest_round_num_success := 3
    min_oracle_results := 1 }


/-! Helper lemmas about the fulfillment loop. -/

/-- Without AMM eligibility the maker loop only ever appends maker matches. -/
theorem fulfillmentLoop_only_match (td md : Drift.PositionDirection)
    (tp : Option Nat) (makers : List (Nat × Nat × Nat)) (bid ask : Nat)
    (acc : List Drift.PerpFulfillmentMethod) :
    ∀ m ∈ (Drift.fulfillmentLoop td md false tp makers bid ask acc).1,
      m ∈ acc ∨ Drift.PerpFulfillmentMethod.isMatchStep m = true := by
  induction makers generalizing bid ask acc with
  | nil =>
    intro m hm
    simp only [Drift.fulfillmentLoop] at hm
    exact Or.inl hm
  | cons maker rest ih =>
    obtain ⟨mk, mi, mp⟩ := maker
    intro m hm
    simp only [Drift.fulfillmentLoop, Bool.false_and, Bool.not_false, if_false] at hm
    by_cases hc : Drift.taker_crosses md tp mp = true
    · rw [hc] at hm
      simp only [Bool.not_true, Bool.false_eq_true, if_false] at hm
      by_cases hl : (acc ++ [Drift.PerpFulfillmentMethod.Match mk mi]).length > 6
      · rw [if_pos hl] at hm
        rcases List.mem_append.mp hm with h | h
        · exact Or.inl h
        · simp only [List.mem_singleton] at h
          subst h
          exact Or.inr rfl
      · rw [if_neg hl] at hm
        rcases ih _ _ _ m hm with h | h
        · rcases List.mem_append.mp h with h' | h'
          · exact Or.inl h'
          · simp only [List.mem_singleton] at h'
            subst h'
            exact Or.inr rfl
        · exact Or.inr h
    · rw [Bool.not_eq_true] at hc
      rw [hc] at hm
      simp only [Bool.not_false, if_true] at hm
      exact Or.inl hm

/-- Each pass of the maker loop appends at most two steps and recurses only
while the plan holds at most six steps, so a loop started on at most six
steps ends with at most eight. -/
theorem fulfillmentLoop_length_le (td md : Drift.PositionDirection)
    (cf : Bool) (tp : Option Nat) (makers : List (Nat × Nat × Nat))
    (bid ask : Nat) (acc : List Drift.PerpFulfillmentMethod)
    (hacc : acc.length ≤ 6) :
    (Drift.fulfillmentLoop td md cf tp makers bid ask acc).1.length ≤ 8 := by
  induction makers generalizing bid ask acc with
  | nil =>
    simp only [Drift.fulfillmentLoop]
    omega
  | cons maker rest ih =>
    obtain ⟨mk, mi, mp⟩ := maker
    simp only [Drift.fulfillmentLoop]
    by_cases hc : Drift.taker_crosses md tp mp = true
    · rw [hc]
      simp only [Bool.not_true, Bool.false_eq_true, if_false]
      set step := if cf && !Drift.maker_better_than_amm td mp bid ask then
        Drift.amm_capped_step td mp bid ask acc else (acc, bid, ask) with hstep
      have hstep1 : step.1.length ≤ acc.length + 1 := by
        rw [hstep]
        by_cases hb : (cf && !Drift.maker_better_than_amm td mp bid ask) = true
        · rw [if_pos hb]
          simp [Drift.amm_capped_step]
        · rw [if_neg hb]
          simp
      by_cases hl : (step.1 ++ [Drift.PerpFulfillmentMethod.Match mk mi]).length > 6
      · rw [if_pos hl]
        have : ((step.1 ++ [Drift.PerpFulfillmentMethod.Match mk mi],
            step.2.1, step.2.2)).1.length =
            step.1.length + 1 := by simp
        rw [this]
        omega
      · rw [if_neg hl]
        apply ih
        simp only [List.length_append, List.length_cons, List.length_nil] at hl ⊢
        omega
    · rw [Bool.not_eq_true] at hc
      rw [hc]
      simp only [Bool.not_false, if_true]
      omega

/-- C1: with no valid oracle price, the plan returned by
`determine_perp_fulfillment_methods` contains zero AMM-sourced steps — every
step is a maker match — regardless of the maker list, the AMM snapshot, and
the `amm_is_available` and auction-gating flags. -/
theorem c1_no_oracle_no_amm_steps (taker_direction : Drift.PositionDirection)
    (taker_price : Option Nat) (maker_orders_info : List (Nat × Nat × Nat))
    (amm : Drift.AMM) (amm_reserve_price : Nat)
    (amm_is_available amm_availability : Bool)
    (plan : List Drift.PerpFulfillmentMethod)
    (h : Drift.determine_perp_fulfillment_methods taker_direction taker_price
      maker_orders_info amm amm_reserve_price none amm_is_available
      amm_availability = some plan) :
    ∀ m ∈ plan, Drift.PerpFulfillmentMethod.isMatchStep m = true := by
  cases hba : Drift.AMM.bid_ask_price amm amm_reserve_price with
  | none =>
    simp only [Drift.determine_perp_fulfillment_methods, hba,
      Option.bind_eq_bind, Option.none_bind] at h
    exact absurd h (by simp)
  | some prices =>
    simp only [Drift.determine_perp_fulfillment_methods, hba,
      Drift.calculate_jit_base_asset_amount, Option.isSome_none,
      Bool.and_false, Bool.false_and, Option.bind_eq_bind, Option.some_bind,
      lt_irrefl, if_false, ite_self, Bool.false_eq_true,
      Option.some.injEq] at h
    intro m hm
    rw [← h] at hm
    rcases fulfillmentLoop_only_match taker_direction taker_direction.opposite
      taker_price maker_orders_info prices.1 prices.2 [] m hm with hmem | hmatch
    · exact absurd hmem (List.not_mem_nil m)
    · exact hmatch

/-- C1 witness: a concrete no-oracle call whose plan is two maker matches. -/
theorem c1_witness :
    Drift.determine_perp_fulfillment_methods Drift.PositionDirection.Long
      (some 200) [(1, 0, 95), (2, 0, 105)] exAmmDrift 100 none true true =
      some [Drift.PerpFulfillmentMethod.Match 1 0,
        Drift.PerpFulfillmentMethod.Match 2 0] ∧
    ∀ m ∈ [Drift.PerpFulfillmentMethod.Match 1 0,
      Drift.PerpFulfillmentMethod.Match 2 0],
      Drift.PerpFulfillmentMethod.isMatchStep m = true :=
  ⟨by decide, c1_no_oracle_no_amm_steps Drift.PositionDirection.Long
    (some 200) [(1, 0, 95), (2, 0, 105)] exAmmDrift 100 true true _ (by decide)⟩

/-- C2 counterexample: a long taker crossing four makers, each priced above
the advancing AMM ask, yields a plan of nine steps — more than the claimed
ceiling of seven. -/
theorem c2_counterexample :
    (Drift.determine_perp_fulfillment_methods Drift.PositionDirection.Long
      (some 200) [(1, 0, 101), (2, 0, 102), (3, 0, 103), (4, 0, 104)]
      exAmmDrift 100 (some 1) true true).map List.length = some 9 ∧
    ¬ (9 ≤ 7) := by
  constructor
  · decide
  · decide

/-- C2 amended: the fulfillment plan has length at most nine — the maker
loop's break fires only once the plan exceeds six steps, so the loop can
end with eight, and the trailing AMM step can add one more (the JIT step,
whose stubbed candidate size is zero, adds none). -/
theorem c2_plan_length_le_nine (taker_direction : Drift.PositionDirection)
    (taker_price : Option Nat) (maker_orders_info : List (Nat × Nat × Nat))
    (amm : Drift.AMM) (amm_reserve_price : Nat)
    (valid_oracle_price : Option Int)
    (amm_is_available amm_availability : Bool)
    (plan : List Drift.PerpFulfillmentMethod)
    (h : Drift.determine_perp_fulfillment_methods taker_direction taker_price
      maker_orders_info amm amm_reserve_price valid_oracle_price
      amm_is_available amm_availability = some plan) :
    plan.length ≤ 9 := by
  cases hba : Drift.AMM.bid_ask_price amm amm_reserve_price with
  | none =>
    simp only [Drift.determine_perp_fulfillment_methods, hba,
      Option.bind_eq_bind, Option.none_bind] at h
    exact absurd h (by simp)
  | some prices =>
    simp only [Drift.determine_perp_fulfillment_methods, hba,
      Drift.calculate_jit_base_asset_amount, Option.bind_eq_bind,
      Option.some_bind, lt_irrefl, if_false, ite_self,
      Option.some.injEq] at h
    have hlen := fulfillmentLoop_length_le taker_direction
      taker_direction.opposite
      (amm_is_available && valid_oracle_price.isSome && amm_availability)
      taker_price maker_orders_info prices.1 prices.2 [] (by simp)
    split at h
    · split at h
      · rw [← h]
        simp only [List.length_append, List.length_cons, List.length_nil]
        omega
      · rw [← h]
        omega
    · rw [← h]
      omega

/-- C2 witness: the amended bound applied to the nine-step plan above. -/
theorem c2_witness :
    Drift.determine_perp_fulfillment_methods Drift.PositionDirection.Long
      (some 200) [(1, 0, 101), (2, 0, 102), (3, 0, 103), (4, 0, 104)]
      exAmmDrift 100 (some 1) true true =
      some [Drift.PerpFulfillmentMethod.AMM (some 101) none,
        Drift.PerpFulfillmentMethod.Match 1 0,
        Drift.PerpFulfillmentMethod.AMM (some 102) none,
        Drift.PerpFulfillmentMethod.Match 2 0,
        Drift.PerpFulfillmentMethod.AMM (some 103) none,
        Drift.PerpFulfillmentMethod.Match 3 0,
        Drift.PerpFulfillmentMethod.AMM (some 104) none,
        Drift.PerpFulfillmentMethod.Match 4 0,
        Drift.PerpFulfillmentMethod.AMM none none] ∧
    [Drift.PerpFulfillmentMethod.AMM (some 101) none,
      Drift.PerpFulfillmentMethod.Match 1 0,
      Drift.PerpFulfillmentMethod.AMM (some 102) none,
      Drift.PerpFulfillmentMethod.Match 2 0,
      Drift.PerpFulfillmentMethod.AMM (some 103) none,
      Drift.PerpFulfillmentMethod.Match 3 0,
      Drift.PerpFulfillmentMethod.AMM (some 104) none,
      Drift.PerpFulfillmentMethod.Match 4 0,
      Drift.PerpFulfillmentMethod.AMM none none].length ≤ 9 :=
  ⟨by decide, c2_plan_length_le_nine Drift.PositionDirection.Long (some 200)
    [(1, 0, 101), (2, 0, 102), (3, 0, 103), (4, 0, 104)] exAmmDrift 100
    (some 1) true true _ (by decide)⟩

/-- C9: when the market status is Settlement, `PerpMarket::get_margin_ratio`
returns 0 for every size and margin requirement type, regardless of the
configured margin ratios and imf factor. -/
theorem c9_settlement_margin_ratio_zero (pm : Drift.PerpMarket) (size : Nat)
    (margin_type : Drift.MarginRequirementType)
    (h : pm.status = Drift.MarketStatus.Settlement) :
    Drift.PerpMarket.get_margin_ratio pm size margin_type = some 0 := by
  simp [Drift.PerpMarket.get_margin_ratio, h]

/-- C9 witness: the settled example market has margin ratio 0 at size 5. -/
theorem c9_witness :
    exPerpMarketSettled.status = Drift.MarketStatus.Settlement ∧
    Drift.PerpMarket.get_margin_ratio exPerpMarketSettled 5
      Drift.MarginRequirementType.Initial = some 0 :=
  ⟨by decide, c9_settlement_margin_ratio_zero exPerpMarketSettled 5
    Drift.MarginRequirementType.Initial (by decide)⟩

/-! Helper lemmas about bid/ask prices. -/

/-- A successful drift bid price never exceeds the reserve price. -/
theorem drift_bid_price_le (amm : Drift.AMM) (rp b : Nat)
    (h : Drift.AMM.bid_price amm rp = some b) : b ≤ rp := by
  simp only [Drift.AMM.bid_price, Protocol.checked_sub_u,
    Protocol.checked_mul_u128, Protocol.checked_div_u, Protocol.cast_u64,
    Option.bind_eq_bind', Option.bind_eq_some'] at h
  obtain ⟨spread, hs, num, hn, q, hq, hb⟩ := h
  split_ifs at hs with h1
  split_ifs at hn with h2
  split_ifs at hq with h3
  split_ifs at hb with h4
  injection hs with hs'
  injection hn with hn'
  injection hq with hq'
  injection hb with hb'
  subst hb' hq' hn' hs'
  calc rp * (Drift.BID_ASK_SPREAD_PRECISION_U128 - amm.short_spread) /
        Drift.BID_ASK_SPREAD_PRECISION_U128
      ≤ rp * Drift.BID_ASK_SPREAD_PRECISION_U128 /
        Drift.BID_ASK_SPREAD_PRECISION_U128 :=
        Nat.div_le_div_right (Nat.mul_le_mul_left rp (Nat.sub_le _ _))
    _ = rp := Nat.mul_div_cancel rp
        (by norm_num [Drift.BID_ASK_SPREAD_PRECISION_U128])

/-- A successful drift ask price is at least the reserve price. -/
theorem drift_ask_price_ge (amm : Drift.AMM) (rp a : Nat)
    (h : Drift.AMM.ask_price amm rp = some a) : rp ≤ a := by
  simp only [Drift.AMM.ask_price, Protocol.checked_add_u128,
    Protocol.checked_mul_u128, Protocol.checked_div_u, Protocol.cast_u64,
    Option.bind_eq_bind', Option.bind_eq_some'] at h
  obtain ⟨spread, hs, num, hn, q, hq, ha⟩ := h
  split_ifs at hs with h1
  split_ifs at hn with h2
  split_ifs at hq with h3
  split_ifs at ha with h4
  injection hs with hs'
  injection hn with hn'
  injection hq with hq'
  injection ha with ha'
  subst ha' hq' hn' hs'
  rw [Nat.le_div_iff_mul_le (by norm_num [Drift.BID_ASK_SPREAD_PRECISION_U128])]
  exact Nat.mul_le_mul_left rp (Nat.le_add_right _ _)

/-- A successful clearing_house bid price never exceeds the mark price. -/
theorem ch_bid_price_le (amm : CH.AMM) (mark b : Nat)
    (h : CH.AMM.bid_price amm mark = some b) : b ≤ mark := by
  simp only [CH.AMM.bid_price, Protocol.checked_sub_u,
    Protocol.checked_mul_u128, Protocol.checked_div_u,
    Option.bind_eq_bind', Option.bind_eq_some'] at h
  obtain ⟨spread, hs, num, hn, hb⟩ := h
  split_ifs at hs with h1
  split_ifs at hn with h2
  split_ifs at hb with h3
  injection hs with hs'
  injection hn with hn'
  injection hb with hb'
  subst hb' hn' hs'
  calc mark * (CH.BID_ASK_SPREAD_PRECISION - amm.short_spread) /
        CH.BID_ASK_SPREAD_PRECISION
      ≤ mark * CH.BID_ASK_SPREAD_PRECISION / CH.BID_ASK_SPREAD_PRECISION :=
        Nat.div_le_div_right (Nat.mul_le_mul_left mark (Nat.sub_le _ _))
    _ = mark := Nat.mul_div_cancel mark
        (by norm_num [CH.BID_ASK_SPREAD_PRECISION])

/-- A successful clearing_house ask price is at least the mark price. -/
theorem ch_ask_price_ge (amm : CH.AMM) (mark a : Nat)
    (h : CH.AMM.ask_price amm mark = some a) : mark ≤ a := by
  simp only [CH.AMM.ask_price, Protocol.checked_add_u128,
    Protocol.checked_mul_u128, Protocol.checked_div_u,
    Option.bind_eq_bind', Option.bind_eq_some'] at h
  obtain ⟨spread, hs, num, hn, ha⟩ := h
  split_ifs at hs with h1
  split_ifs at hn with h2
  split_ifs at ha with h3
  injection hs with hs'
  injection hn with hn'
  injection ha with ha'
  subst ha' hn' hs'
  rw [Nat.le_div_iff_mul_le (by norm_num [CH.BID_ASK_SPREAD_PRECISION])]
  exact Nat.mul_le_mul_left mark (Nat.le_add_right _ _)

/-- C3: whenever the bid/ask computation succeeds, the bid is at most and
the ask at least the mark/reserve price — in both the drift
(perp_market.rs) and the clearing_house (market.rs) generations. -/
theorem c3_bid_le_mark_le_ask :
    (∀ (amm : Drift.AMM) (rp b a : Nat),
      Drift.AMM.bid_ask_price amm rp = some (b, a) → b ≤ rp ∧ rp ≤ a) ∧
    (∀ (amm : CH.AMM) (mark b a : Nat),
      CH.AMM.bid_ask_price amm mark = some (b, a) → b ≤ mark ∧ mark ≤ a) := by
  constructor
  · intro amm rp b a h
    simp only [Drift.AMM.bid_ask_price, Option.bind_eq_bind',
      Option.bind_eq_some', Option.some.injEq, Prod.mk.injEq] at h
    obtain ⟨bid, hbid, ask, hask, h1, h2⟩ := h
    subst h1
    subst h2
    exact ⟨drift_bid_price_le amm rp bid hbid, drift_ask_price_ge amm rp ask hask⟩
  · intro amm mark b a h
    simp only [CH.AMM.bid_ask_price, Option.bind_eq_bind',
      Option.bind_eq_some', Option.some.injEq, Prod.mk.injEq] at h
    obtain ⟨bid, hbid, ask, hask, h1, h2⟩ := h
    subst h1
    subst h2
    exact ⟨ch_bid_price_le amm mark bid hbid, ch_ask_price_ge amm mark ask hask⟩

/-- C3 witness: both generations evaluated at a flat AMM with zero spreads. -/
theorem c3_witness :
    (Drift.AMM.bid_ask_price exAmmDrift 100 = some (100, 100) ∧
      100 ≤ 100 ∧ 100 ≤ 100) ∧
    (CH.AMM.bid_ask_price exAmmCH 100 = some (100, 100) ∧
      100 ≤ 100 ∧ 100 ≤ 100) :=
  ⟨⟨by decide, (c3_bid_le_mark_le_ask.1 exAmmDrift 100 100 100 (by decide)).1,
    (c3_bid_le_mark_le_ask.1 exAmmDrift 100 100 100 (by decide)).2⟩,
  ⟨by decide, (c3_bid_le_mark_le_ask.2 exAmmCH 100 100 100 (by decide)).1,
    (c3_bid_le_mark_le_ask.2 exAmmCH 100 100 100 (by decide)).2⟩⟩

/-- C5: whenever the validity and spread computations succeed,
`block_operation` returns true exactly when the oracle is invalid under the
validity rules or the oracle-mark spread exceeds the configured
divergence maximum. -/
theorem c5_block_operation_iff (amm : CH.AMM)
    (oracle_price_data : CH.OraclePriceData)
    (guard_rails : CH.OracleGuardRails) (precomputed_mark_price : Option Nat)
    (v : Bool) (pct : Int) (b : Bool)
    (hv : CH.is_oracle_valid amm oracle_price_data guard_rails.validity = some v)
    (hp : CH.calculate_oracle_mark_spread_pct amm oracle_price_data
      precomputed_mark_price = some pct)
    (hb : CH.block_operation amm oracle_price_data guard_rails
      precomputed_mark_price = some b) :
    b = true ↔ (v = false ∨
      CH.is_oracle_mark_too_divergent pct guard_rails.price_divergence = true) := by
  simp only [CH.block_operation, CH.get_oracle_status, hv, hp,
    Option.bind_eq_bind', Option.some_bind', Option.some.injEq] at hb
  subst hb
  simp [Bool.or_eq_true, Bool.not_eq_true']

/-- C5 witness: a fresh, confident reading with zero spread does not block;
the equivalence instantiated at that input. -/
theorem c5_witness :
    CH.block_operation exAmmCH exOracleData exGuardRails (some 100) =
      some false ∧
    (false = true ↔ (true = false ∨
      CH.is_oracle_mark_too_divergent 0 exGuardRails.price_divergence = true)) :=
  ⟨by decide, c5_block_operation_iff exAmmCH exOracleData exGuardRails
    (some 100) true 0 false (by decide) (by decide) (by decide)⟩

/-- C8: a non-positive unrealized/unsettled pnl always carries the full
unit asset weight — in both the clearing_house (`get_unsettled_asset_weight`
returns `BANK_WEIGHT_PRECISION`) and the drift generation
(`get_unrealized_asset_weight` returns `SPOT_WEIGHT_PRECISION` whenever it
succeeds). -/
theorem c8_nonpositive_pnl_full_weight :
    (∀ (m : CH.Market) (unsettled_pnl : Int)
      (margin_type : CH.MarginRequirementType), unsettled_pnl ≤ 0 →
      CH.Market.get_unsettled_asset_weight m unsettled_pnl margin_type =
        some CH.BANK_WEIGHT_PRECISION) ∧
    (∀ (pm : Drift.PerpMarket) (net_user_pnl_result : Option Int)
      (unrealized_pnl : Int) (margin_type : Drift.MarginRequirementType)
      (w : Nat), unrealized_pnl ≤ 0 →
      Drift.PerpMarket.get_unrealized_asset_weight pm net_user_pnl_result
        unrealized_pnl margin_type = some w →
      w = Drift.SPOT_WEIGHT_PRECISION) := by
  constructor
  · intro m unsettled_pnl margin_type hpnl
    simp only [CH.Market.get_unsettled_asset_weight]
    rw [if_neg (by omega)]
    rfl
  · intro pm net_user_pnl_result unrealized_pnl margin_type w hpnl h
    have hnot : ¬ unrealized_pnl > 0 := by omega
    simp only [Drift.PerpMarket.get_unrealized_asset_weight, hnot, if_false,
      Option.bind_eq_bind'] at h
    split at h
    · rw [Option.bind_eq_some'] at h
      obtain ⟨net, -, h⟩ := h
      split at h
      · rw [Option.bind_eq_some'] at h
        obtain ⟨x, -, h⟩ := h
        rw [Option.bind_eq_some'] at h
        obtain ⟨y, -, h⟩ := h
        rw [Option.bind_eq_some'] at h
        obtain ⟨z, -, h⟩ := h
        exact (Option.some.inj h).symm
      · simp only [Option.some_bind'] at h
        exact (Option.some.inj h).symm
    · simp only [Option.some_bind'] at h
      exact (Option.some.inj h).symm

/-- C8 witness: both generations at a negative pnl. -/
theorem c8_witness :
    CH.Market.get_unsettled_asset_weight exMarketCH (-5)
      CH.MarginRequirementType.Initial = some CH.BANK_WEIGHT_PRECISION ∧
    ((-5 : Int) ≤ 0 ∧
      Drift.PerpMarket.get_unrealized_asset_weight exPerpMarket (some 0) (-5)
        Drift.MarginRequirementType.Initial = some 10000 ∧
      (10000 : Nat) = Drift.SPOT_WEIGHT_PRECISION) :=
  ⟨c8_nonpositive_pnl_full_weight.1 exMarketCH (-5)
    CH.MarginRequirementType.Initial (by decide),
  by decide, by decide,
  c8_nonpositive_pnl_full_weight.2 exPerpMarket (some 0) (-5)
    Drift.MarginRequirementType.Initial 10000 (by decide) (by decide)⟩

/-- C6 counterexample: with a zero imf factor, the stock configuration
(initial 1000, partial 625, maintenance 500) yields a Maintenance margin
ratio of 625 — the partial ratio — not the configured base 500. -/
theorem c6_counterexample :
    exMarketCH.imf_factor = 0 ∧
    exMarketCH.margin_ratio_maintenance = 500 ∧
    CH.Market.get_margin_ratio exMarketCH 0
      CH.MarginRequirementType.Maintenance = some 625 ∧
    (625 : Nat) ≠ 500 := by
  refine ⟨by decide, by decide, by decide, by decide⟩

/-- C6 amended: with a zero imf factor, `Market::get_margin_ratio` returns
the maximum of the configured base ratio for the margin type and the
partial ratio (size plays no role); `PerpMarket::get_margin_ratio` returns
exactly the configured base ratio provided the market is not in
Settlement. -/
theorem c6_zero_imf_margin_ratio :
    (∀ (m : CH.Market) (size : Nat) (t : CH.MarginRequirementType),
      m.imf_factor = 0 → m.marginRatioPartial < 2 ^ 32 →
      CH.Market.get_margin_ratio m size t =
        some (max (match t with
          | CH.MarginRequirementType.Initial => m.margin_ratio_initial
          | CH.MarginRequirementType.Partial => m.marginRatioPartial
          | CH.MarginRequirementType.Maintenance => m.margin_ratio_maintenance)
          m.marginRatioPartial)) ∧
    (∀ (pm : Drift.PerpMarket) (size : Nat)
      (t : Drift.MarginRequirementType), pm.imf_factor = 0 →
      pm.status ≠ Drift.MarketStatus.Settlement →
      Drift.PerpMarket.get_margin_ratio pm size t =
        some (match t with
          | Drift.MarginRequirementType.Initial => pm.margin_ratio_initial
          | Drift.MarginRequirementType.Maintenance =>
            pm.margin_ratio_maintenance)) := by
  constructor
  · intro m size t h0 hlt
    simp only [CH.Market.get_margin_ratio]
    rw [if_neg (by omega)]
    rw [Protocol.as_u32, Nat.mod_eq_of_lt hlt]
  · intro pm size t h0 hst
    simp only [Drift.PerpMarket.get_margin_ratio]
    rw [if_neg hst]
    simp [Drift.calculate_size_premium_liability_weight, h0]

/-- C6 witness: the amended statement at the stock configuration, Initial
type, where the base ratio 1000 dominates the partial 625. -/
theorem c6_witness :
    CH.Market.get_margin_ratio exMarketCH 7 CH.MarginRequirementType.Initial =
      some 1000 ∧
    Drift.PerpMarket.get_margin_ratio exPerpMarket 7
      Drift.MarginRequirementType.Initial = some 1000 :=
  by
  refine ⟨?_, ?_⟩
  · simpa using c6_zero_imf_margin_ratio.1 exMarketCH 7 CH.MarginRequirementType.Initial (by decide) (by decide)
  · simpa using c6_zero_imf_margin_ratio.2 exPerpMarket 7 Drift.MarginRequirementType.Initial (by decide) (by decide)

/-- A successfully converted switchboard decimal whose mantissa lies in the
i128 range has absolute value at most 2^127. -/
theorem convert_switchboard_decimal_natAbs_le (sd : CH.SwitchboardDecimal)
    (p : Int) (hlo : -(2 ^ 127) ≤ sd.mantissa) (hhi : sd.mantissa < 2 ^ 127)
    (h : CH.convert_switchboard_decimal sd = some p) :
    p.natAbs ≤ 2 ^ 127 := by
  have hmabs : sd.mantissa.natAbs ≤ 2 ^ 127 := by
    rcases Int.natAbs_eq sd.mantissa with he | he <;> omega
  simp only [CH.convert_switchboard_decimal, Protocol.checked_div_i128,
    Protocol.checked_mul_i128] at h
  split_ifs at h with h1 h2 h3
  · injection h with h'
    subst h'
    rw [Int.natAbs_tdiv]
    calc sd.mantissa.natAbs.div (((10 ^ sd.scale / CH.MARK_PRICE_PRECISION : Nat) : Int)).natAbs
        ≤ sd.mantissa.natAbs := Nat.div_le_self _ _
      _ ≤ 2 ^ 127 := hmabs
  · injection h with h'
    subst h'
    have := h3.2
    omega

set_option maxRecDepth 8000 in
/-- C10 counterexample: a negative reported standard deviation (mantissa -1
at scale 20) converts to zero by truncation, so the returned confidence is
the price floor 50000000, not `u128::MAX`. -/
theorem c10_counterexample :
    exAggregator.latest_round_std_deviation.mantissa < 0 ∧
    CH.get_switchboard_price exAggregator 100 =
      some { price := 50000000000, confidence := 50000000, delay := 100,
             has_sufficient_number_of_data_points := true } ∧
    (50000000 : Nat) ≠ 2 ^ 128 - 1 := by
  refine ⟨by decide, by decide, by decide⟩

/-- C10 amended: `get_switchboard_price` flags the reading with confidence
`u128::MAX` when the converted standard deviation is negative (a negative
mantissa whose conversion truncates to zero is not flagged), and in every
successful read the confidence is at least `|price| / 1000`. -/
theorem c10_switchboard_confidence (agg : CH.AggregatorAccountData)
    (clock_slot : Nat) (data : CH.OraclePriceData)
    (hlo : -(2 ^ 127) ≤ agg.latest_round_result.mantissa)
    (hhi : agg.latest_round_result.mantissa < 2 ^ 127)
    (h : CH.get_switchboard_price agg clock_slot = some data) :
    (∀ c, CH.convert_switchboard_decimal agg.latest_round_std_deviation =
      some c → c < 0 → data.confidence = 2 ^ 128 - 1) ∧
    data.price.natAbs / 1000 ≤ data.confidence := by
  simp only [CH.get_switchboard_price, Option.bind_eq_bind', Option.some_bind',
    Option.bind_eq_some'] at h
  obtain ⟨price, hprice, conf0, hconf0, h⟩ := h
  by_cases hneg : conf0 < 0
  · rw [if_pos hneg] at h
    simp only [Option.bind_eq_some'] at h
    obtain ⟨slotI, -, openI, -, delay, -, heq⟩ := h
    injection heq with heq'
    subst heq'
    have hb := convert_switchboard_decimal_natAbs_le
      agg.latest_round_result price hlo hhi hprice
    have hdle := Nat.div_le_self price.natAbs 1000
    constructor
    · intro c hc hneg'
      rfl
    · show price.natAbs / 1000 ≤ 2 ^ 128 - 1
      omega
  · rw [if_neg hneg] at h
    have hdiv : Protocol.checked_div_u price.natAbs 1000 =
        some (price.natAbs / 1000) := by norm_num [Protocol.checked_div_u]
    simp only [hdiv, Option.some_bind', Option.bind_eq_some'] at h
    obtain ⟨slotI, -, openI, -, delay, -, heq⟩ := h
    injection heq with heq'
    subst heq'
    constructor
    · intro c hc hneg'
      rw [hconf0] at hc
      injection hc with hc'
      subst hc'
      exact absurd hneg' hneg
    · show price.natAbs / 1000 ≤ max conf0.natAbs (price.natAbs / 1000)
      exact le_max_right _ _

set_option maxRecDepth 8000 in
/-- C10 witness: the amended statement instantiated at the truncating
aggregator, where the returned confidence 50000000 is exactly the
`|price| / 1000` floor. -/
theorem c10_witness :
    CH.get_switchboard_price exAggregator 100 =
      some { price := 50000000000, confidence := 50000000, delay := 100,
             has_sufficient_number_of_data_points := true } ∧
    ((∀ c, CH.convert_switchboard_decimal
        exAggregator.latest_round_std_deviation = some c → c < 0 →
        ({ price := 50000000000, confidence := 50000000, delay := 100,
           has_sufficient_number_of_data_points := true } :
          CH.OraclePriceData).confidence = 2 ^ 128 - 1) ∧
      ({ price := 50000000000, confidence := 50000000, delay := 100,
         has_sufficient_number_of_data_points := true } :
        CH.OraclePriceData).price.natAbs / 1000 ≤
      ({ price := 50000000000, confidence := 50000000, delay := 100,
         has_sufficient_number_of_data_points := true } :
        CH.OraclePriceData).confidence) :=
  ⟨by decide, c10_switchboard_confidence exAggregator 100
    { price := 50000000000, confidence := 50000000, delay := 100,
      has_sufficient_number_of_data_points := true }
    (by decide) (by decide) (by decide)⟩

/-- Evaluation of `Market::get_margin_ratio` at the Initial type under a
positive imf factor: a successful call returns the initial ratio raised to
the clamped size-surplus requirement. -/
theorem ch_gmr_initial_eval (m : CH.Market) (size : Nat) (r : Nat)
    (himf : 0 < m.imf_factor)
    (h : CH.Market.get_margin_ratio m size
      CH.MarginRequirementType.Initial = some r) :
    r = max m.margin_ratio_initial
      (min (max m.marginRatioPartial
          ((m.marginRatioPartial -
            m.marginRatioPartial / (CH.BANK_IMF_PRECISION / m.imf_factor)) +
            (Nat.sqrt (size / 1000 + 1) * m.imf_factor) /
              (100000 * CH.BANK_IMF_PRECISION / CH.MARGIN_PRECISION)))
        CH.MARGIN_PRECISION) := by
  simp only [CH.Market.get_margin_ratio] at h
  rw [if_pos himf] at h
  simp only [Protocol.checked_div_u, Protocol.checked_sub_u,
    Protocol.checked_mul_u128, Protocol.checked_add_u128,
    Option.bind_eq_bind', Option.bind_eq_some'] at h
  obtain ⟨q, hq, numer, hnum, prod, hprod, term, hterm, adj, hadj, hr⟩ := h
  split_ifs at hq with hd
  split_ifs at hnum with hsub
  split_ifs at hprod with hm
  split_ifs at hterm with hD
  split_ifs at hadj with ha
  injection hq with hq'
  injection hnum with hn'
  injection hprod with hp'
  injection hterm with ht'
  injection hadj with ha'
  injection hr with hr'
  subst hq' hn' hp' ht' ha'
  rw [← hr', Protocol.as_u32, Nat.mod_eq_of_lt
    (lt_of_le_of_lt (Nat.min_le_right _ _)
      (by norm_num [CH.MARGIN_PRECISION]))]

/-- Evaluation of the modelled size-premium weight under a positive imf
factor: a successful call returns the base raised to floor + surplus. -/
theorem drift_premium_eval (size imf_f lw prec w : Nat) (himf : imf_f ≠ 0)
    (h : Drift.calculate_size_premium_liability_weight size imf_f lw prec =
      some w) :
    w = max lw ((lw - lw / (Drift.SPOT_IMF_PRECISION / imf_f)) +
      (Nat.sqrt (size / 1000 + 1) * imf_f) /
        (100000 * Drift.SPOT_IMF_PRECISION / prec)) := by
  simp only [Drift.calculate_size_premium_liability_weight] at h
  rw [if_neg himf] at h
  simp only [Protocol.checked_div_u, Protocol.checked_sub_u,
    Protocol.checked_mul_u128, Protocol.checked_add_u128,
    Option.bind_eq_bind', Option.bind_eq_some'] at h
  obtain ⟨q, hq, numer, hnum, prod, hprod, term, hterm, adj, hadj, hw⟩ := h
  split_ifs at hq with hd
  split_ifs at hnum with hsub
  split_ifs at hprod with hm
  split_ifs at hterm with hD
  split_ifs at hadj with ha
  injection hq with hq'
  injection hnum with hn'
  injection hprod with hp'
  injection hterm with ht'
  injection hadj with ha'
  injection hw with hw'
  subst hq' hn' hp' ht' ha'
  exact hw'.symm

/-- C7: for a fixed positive imf factor, the Initial margin ratio is
non-decreasing in size — in both the clearing_house
(`Market::get_margin_ratio`) and the drift (`PerpMarket::get_margin_ratio`)
generations, whenever both evaluations succeed. -/
theorem c7_margin_ratio_monotone :
    (∀ (m : CH.Market) (s1 s2 r1 r2 : Nat), 0 < m.imf_factor → s1 ≤ s2 →
      CH.Market.get_margin_ratio m s1 CH.MarginRequirementType.Initial =
        some r1 →
      CH.Market.get_margin_ratio m s2 CH.MarginRequirementType.Initial =
        some r2 →
      r1 ≤ r2) ∧
    (∀ (pm : Drift.PerpMarket) (s1 s2 r1 r2 : Nat), 0 < pm.imf_factor →
      s1 ≤ s2 →
      Drift.PerpMarket.get_margin_ratio pm s1
        Drift.MarginRequirementType.Initial = some r1 →
      Drift.PerpMarket.get_margin_ratio pm s2
        Drift.MarginRequirementType.Initial = some r2 →
      r1 ≤ r2) := by
  have hsqrt : ∀ s1 s2 : Nat, s1 ≤ s2 →
      Nat.sqrt (s1 / 1000 + 1) ≤ Nat.sqrt (s2 / 1000 + 1) := by
    intro s1 s2 hs
    exact Nat.sqrt_le_sqrt (by omega)
  constructor
  · intro m s1 s2 r1 r2 himf hs h1 h2
    rw [ch_gmr_initial_eval m s1 r1 himf h1,
      ch_gmr_initial_eval m s2 r2 himf h2]
    exact max_le_max (le_refl _) (min_le_min
      (max_le_max (le_refl _) (Nat.add_le_add_left
        (Nat.div_le_div_right
          (Nat.mul_le_mul_right m.imf_factor (hsqrt s1 s2 hs))) _))
      (le_refl _))
  · intro pm s1 s2 r1 r2 himf hs h1 h2
    by_cases hset : pm.status = Drift.MarketStatus.Settlement
    · simp only [Drift.PerpMarket.get_margin_ratio] at h1 h2
      rw [if_pos hset] at h1 h2
      injection h1 with h1'
      injection h2 with h2'
      omega
    · simp only [Drift.PerpMarket.get_margin_ratio] at h1 h2
      rw [if_neg hset] at h1 h2
      simp only [Option.bind_eq_bind', Option.bind_eq_some'] at h1 h2
      obtain ⟨w1, hw1, hr1⟩ := h1
      obtain ⟨w2, hw2, hr2⟩ := h2
      injection hr1 with hr1'
      injection hr2 with hr2'
      subst hr1' hr2'
      rw [drift_premium_eval s1 pm.imf_factor pm.margin_ratio_initial
        Drift.MARGIN_PRECISION_U128 w1 (by omega) hw1,
        drift_premium_eval s2 pm.imf_factor pm.margin_ratio_initial
        Drift.MARGIN_PRECISION_U128 w2 (by omega) hw2]
      exact max_le_max (le_refl _)
        (max_le_max (le_refl _) (Nat.add_le_add_left
          (Nat.div_le_div_right
            (Nat.mul_le_mul_right pm.imf_factor (hsqrt s1 s2 hs))) _))

/-- C7 witness: the monotone bound at sizes 0 and 999 for both generations
with positive imf factors. -/
theorem c7_witness :
    CH.Market.get_margin_ratio exMarketCHImf 0
      CH.MarginRequirementType.Initial = some 1000 ∧
    CH.Market.get_margin_ratio exMarketCHImf 999
      CH.MarginRequirementType.Initial = some 1000 ∧
    (1000 : Nat) ≤ 1000 ∧
    Drift.PerpMarket.get_margin_ratio exPerpMarketImf 0
      Drift.MarginRequirementType.Initial = some 1000 ∧
    Drift.PerpMarket.get_margin_ratio exPerpMarketImf 999
      Drift.MarginRequirementType.Initial = some 1000 ∧
    (1000 : Nat) ≤ 1000 := by
  refine ⟨by decide, by decide,
    c7_margin_ratio_monotone.1 exMarketCHImf 0 999 1000 1000
      (by decide) (by norm_num) (by decide) (by decide),
    by decide, by decide,
    c7_margin_ratio_monotone.2 exPerpMarketImf 0 999 1000 1000
      (by decide) (by norm_num) (by decide) (by decide)⟩

/-- C4 counterexample: long taker at limit 200 crossing makers at 95 and
105 with the AMM ask 100 strictly between them and JIT inactive: the plan
is the three claimed steps followed by a trailing open-ended AMM step, not
the three steps alone. -/
theorem c4_counterexample :
    Drift.determine_perp_fulfillment_methods Drift.PositionDirection.Long
      (some 200) [(1, 0, 95), (2, 0, 105)] exAmmDrift 100 (some 1) true true =
      some [Drift.PerpFulfillmentMethod.Match 1 0,
        Drift.PerpFulfillmentMethod.AMM (some 105) none,
        Drift.PerpFulfillmentMethod.Match 2 0,
        Drift.PerpFulfillmentMethod.AMM none none] ∧
    some [Drift.PerpFulfillmentMethod.Match 1 0,
      Drift.PerpFulfillmentMethod.AMM (some 105) none,
      Drift.PerpFulfillmentMethod.Match 2 0,
      Drift.PerpFulfillmentMethod.AMM none none] ≠
      some [Drift.PerpFulfillmentMethod.Match 1 0,
        Drift.PerpFulfillmentMethod.AMM (some 105) none,
        Drift.PerpFulfillmentMethod.Match 2 0] := by
  refine ⟨by decide, by decide⟩

/-- C4 amended: for a long taker whose limit crosses two makers (ascending
prices), AMM eligible, JIT inactive, and the AMM ask strictly between the
two maker prices, the plan is exactly
[MatchMaker(m1), AmmFill(cap = m2.price), MatchMaker(m2)] followed by the
trailing open-ended AMM step of the router's final segment (which crosses
because the AMM's effective ask was advanced to m2.price ≤ the taker's
limit). -/
theorem c4_two_maker_plan (k1 i1 p1 k2 i2 p2 : Nat) (amm : Drift.AMM)
    (rp tp : Nat) (op : Int) (b a : Nat)
    (hba : Drift.AMM.bid_ask_price amm rp = some (b, a))
    (h1 : p1 < a) (h2 : a < p2) (htp : p2 ≤ tp)
    (hjit : amm.amm_jit_intensity = 0) :
    Drift.determine_perp_fulfillment_methods Drift.PositionDirection.Long
      (some tp) [(k1, i1, p1), (k2, i2, p2)] amm rp (some op) true true =
      some [Drift.PerpFulfillmentMethod.Match k1 i1,
        Drift.PerpFulfillmentMethod.AMM (some p2) none,
        Drift.PerpFulfillmentMethod.Match k2 i2,
        Drift.PerpFulfillmentMethod.AMM none none] := by
  have hc1 : Drift.taker_crosses Drift.PositionDirection.Short (some tp) p1 =
      true := by
    simp only [Drift.taker_crosses, Drift.do_orders_cross, decide_eq_true_eq]
    omega
  have hc2 : Drift.taker_crosses Drift.PositionDirection.Short (some tp) p2 =
      true := by
    simp only [Drift.taker_crosses, Drift.do_orders_cross, decide_eq_true_eq]
    omega
  have hmb1 : Drift.maker_better_than_amm Drift.PositionDirection.Long p1 b a =
      true := by
    simp only [Drift.maker_better_than_amm, decide_eq_true_eq]
    omega
  have hmb2 : Drift.maker_better_than_amm Drift.PositionDirection.Long p2 b a =
      false := by
    simp only [Drift.maker_better_than_amm, decide_eq_false_iff_not]
    omega
  simp [Drift.determine_perp_fulfillment_methods, hba,
    Drift.PositionDirection.opposite, Drift.fulfillmentLoop,
    Drift.amm_capped_step, Drift.AMM.amm_jit_is_active,
    Drift.calculate_jit_base_asset_amount, hc1, hc2, hmb1, hmb2, hjit]

/-- C4 witness: the amended plan at the concrete two-maker scenario. -/
theorem c4_witness :
    Drift.determine_perp_fulfillment_methods Drift.PositionDirection.Long
      (some 200) [(3, 1, 95), (4, 2, 105)] exAmmDrift 100 (some 1) true true =
      some [Drift.PerpFulfillmentMethod.Match 3 1,
        Drift.PerpFulfillmentMethod.AMM (some 105) none,
        Drift.PerpFulfillmentMethod.Match 4 2,
        Drift.PerpFulfillmentMethod.AMM none none] :=
  c4_two_maker_plan 3 1 95 4 2 105 exAmmDrift 100 200 1 100 100
    (by decide) (by decide) (by decide) (by decide) (by decide)
